import Mathlib

/-!
Verification of the quadrant classification and insight engine of the
`maxnewsite/2x2` repository against its specification.

The embedding follows the TypeScript source:

* `src/lib/store.ts` (utils part): `evaluateQuadrantRule`, `getQuadrantForItem`,
  `generateDefaultQuadrants`.
* `src/unnamed/part_004`: `generateDataInsights` (InsightsPanel).
* `src/unnamed/part_003`: the scatter-plot marker-colour computation.
* `src/lib/openai.ts`: `createMockAnalysis` and the overall-confidence
  computation of `analyzeContent`.
* `src/app/api/analyze/route.ts`: the fallback/flagging logic of `POST`.

Modelling conventions:

* JavaScript numbers are modelled as exact rationals (`ℚ`).  Every operation
  the modelled code performs on numbers is either a comparison or an exact
  small-denominator computation, so no floating-point rounding can change any
  branch taken by the modelled code on the inputs considered here.
* JS decimal literals are written with `mkRat` (for instance `0.4` is
  `mkRat 2 5`), which is exactly the literal value and keeps the definitions
  kernel-computable.
* `evaluateQuadrantRule` in the source substitutes the characters `x`/`y` by
  the decimal rendering of the coordinates and feeds the resulting string to
  `new Function('return ' + expression)()` inside `try/catch`.  The dynamic
  evaluation is modelled by a tokenizer and a fueled recursive-descent
  parser/evaluator for the numeric/boolean JS expression fragment
  (numeric literals, `< <= > >= == != === !==`, `&& || ( )`, unary minus).
  Any other construct (identifiers, calls, subtraction, ...) is modelled as a
  failed evaluation, which the `catch` turns into `false` - exactly the
  observable behaviour for such rule strings.
-/

/-! ### Decimal rendering of JS numbers (Number.prototype.toString) -/

/-- Character code test for a decimal digit (codes 48-57). -/
def isDigitCh (c : Char) : Bool := decide (48 ≤ c.toNat) && decide (c.toNat ≤ 57)

/-- Characters that may occur inside a JS decimal numeral token. -/
def isNumCh (c : Char) : Bool := isDigitCh c || decide (c = '.')

/-- Decimal digit character for a value below 10. -/
def digitChar : ℕ → Char
  | 0 => '0' | 1 => '1' | 2 => '2' | 3 => '3' | 4 => '4'
  | 5 => '5' | 6 => '6' | 7 => '7' | 8 => '8' | 9 => '9'
  | _ => '0'

/-- Numeric value of a digit character. -/
def charVal (c : Char) : ℕ := c.toNat - 48

/-- Value of a digit string, most significant digit first. -/
def parseNat (l : List Char) : ℕ := l.foldl (fun a c => 10 * a + charVal c) 0

/-- Fueled decimal rendering of a natural number (the fuel only serves to make
the recursion structural, hence kernel-computable). -/
def digAux : ℕ → ℕ → List Char
  | 0, _ => []
  | f + 1, n => if n < 10 then [digitChar n] else digAux f (n / 10) ++ [digitChar (n % 10)]

/-- Decimal digits of a natural number, most significant first. -/
def natDigits (n : ℕ) : List Char := digAux (n + 1) n

/-- Exactly `k` decimal digits of `r` (leading zeros added), used for the
fractional part of a decimal rendering. -/
def padDigits (k r : ℕ) : List Char :=
  List.replicate (k - (natDigits r).length) '0' ++ natDigits r

/-- Rationals with a terminating decimal expansion.  Every IEEE-754 double -
hence every number a JS program can hold - is such a rational, so this
predicate carves out exactly the coordinate values the source code can see. -/
abbrev FiniteDecimal (q : ℚ) : Prop := 10 ^ q.den % q.den = 0

/-- Decimal rendering of a nonnegative rational with terminating decimal
expansion, as produced by JS `Number.prototype.toString` for the values in
range (trailing zeros may differ from the shortest JS form; the rendered
string denotes the same number, which is all the substitution pipeline can
observe).  Non-terminating rationals cannot occur as JS numbers; they render
as the empty string. -/
def ratDecRender (q : ℚ) : List Char :=
  let k := q.den
  if 10 ^ k % k = 0 then
    let m := q.num.toNat * 10 ^ k / k
    natDigits (m / 10 ^ k) ++ '.' :: padDigits k (m % 10 ^ k)
  else []

/-- JS rendering of a number (sign handled as in `Number.prototype.toString`). -/
def numToString (q : ℚ) : List Char :=
  if q < 0 then '-' :: ratDecRender (-q) else ratDecRender q

/-! ### The string substitution of `evaluateQuadrantRule`

`rule.replace(/x/g, x.toString()).replace(/y/g, y.toString())` replaces every
occurrence of a single character, i.e. acts independently on each character
of the rule string. -/

/-- Replace every occurrence of the character `c` by the string `t`
(the semantics of `String.prototype.replace` with a global single-character
regular expression). -/
def substAll (c : Char) (t : List Char) : List Char → List Char
  | [] => []
  | d :: l => (if d = c then t else [d]) ++ substAll c t l

/-- The `expression` local of `evaluateQuadrantRule` (store.ts:356): the rule
text with `x` and then `y` substituted by the rendered coordinates. -/
def ruleExpression (rule : String) (x y : ℚ) : List Char :=
  substAll 'y' (numToString y) (substAll 'x' (numToString x) rule.data)

/-! ### Tokenizer for the evaluated JS expression fragment -/

/-- Tokens of the numeric/boolean JS expression fragment. -/
inductive Tok
  | num (q : ℚ)
  | lt | le | gt | ge
  | looseEq | looseNe | strictEq | strictNe
  | andand | oror | lparen | rparen | minus
  deriving DecidableEq

/-- Parse one JS decimal numeral (digits with at most one decimal point;
`5.`, `.5` and `5` are all legal, a second `.` or any other character is a
syntax error). -/
def parseNumeral (l : List Char) : Option ℚ :=
  let ip := l.takeWhile isDigitCh
  match l.dropWhile isDigitCh with
  | [] => if ip.isEmpty then none else some (mkRat (parseNat ip) 1)
  | '.' :: fr =>
    if fr.all isDigitCh && (!ip.isEmpty || !fr.isEmpty) then
      some (mkRat (parseNat ip * 10 ^ fr.length + parseNat fr) (10 ^ fr.length))
    else none
  | _ => none

/-- Fueled tokenizer.  `none` models a JS `SyntaxError`/`ReferenceError`
raised by `new Function` for input outside the supported fragment. -/
def tokAux : ℕ → List Char → Option (List Tok)
  | 0, _ => none
  | _ + 1, [] => some []
  | f + 1, c :: cs =>
    if c = ' ' then tokAux f cs
    else if c = '(' then (tokAux f cs).map (fun ts => Tok.lparen :: ts)
    else if c = ')' then (tokAux f cs).map (fun ts => Tok.rparen :: ts)
    else if c = '-' then (tokAux f cs).map (fun ts => Tok.minus :: ts)
    else if c = '&' then
      match cs with
      | [] => none
      | d :: cs2 => if d = '&' then (tokAux f cs2).map (fun ts => Tok.andand :: ts) else none
    else if c = '|' then
      match cs with
      | [] => none
      | d :: cs2 => if d = '|' then (tokAux f cs2).map (fun ts => Tok.oror :: ts) else none
    else if c = '<' then
      match cs with
      | [] => (tokAux f []).map (fun ts => Tok.lt :: ts)
      | d :: cs2 =>
        if d = '=' then (tokAux f cs2).map (fun ts => Tok.le :: ts)
        else (tokAux f (d :: cs2)).map (fun ts => Tok.lt :: ts)
    else if c = '>' then
      match cs with
      | [] => (tokAux f []).map (fun ts => Tok.gt :: ts)
      | d :: cs2 =>
        if d = '=' then (tokAux f cs2).map (fun ts => Tok.ge :: ts)
        else (tokAux f (d :: cs2)).map (fun ts => Tok.gt :: ts)
    else if c = '=' then
      match cs with
      | [] => none
      | d :: cs2 =>
        if d = '=' then
          match cs2 with
          | [] => (tokAux f []).map (fun ts => Tok.looseEq :: ts)
          | e :: cs3 =>
            if e = '=' then (tokAux f cs3).map (fun ts => Tok.strictEq :: ts)
            else (tokAux f (e :: cs3)).map (fun ts => Tok.looseEq :: ts)
        else none
    else if c = '!' then
      match cs with
      | [] => none
      | d :: cs2 =>
        if d = '=' then
          match cs2 with
          | [] => (tokAux f []).map (fun ts => Tok.looseNe :: ts)
          | e :: cs3 =>
            if e = '=' then (tokAux f cs3).map (fun ts => Tok.strictNe :: ts)
            else (tokAux f (e :: cs3)).map (fun ts => Tok.looseNe :: ts)
        else none
    else if isNumCh c then
      match parseNumeral (c :: cs.takeWhile isNumCh) with
      | some q => (tokAux f (cs.dropWhile isNumCh)).map (fun ts => Tok.num q :: ts)
      | none => none
    else none

/-- Tokenize a character list (fuel `length + 1` always suffices: every step
consumes at least one character). -/
def tokenize (l : List Char) : Option (List Tok) := tokAux (l.length + 1) l

/-! ### Evaluating the token stream with JS semantics -/

/-- Runtime values of the evaluated fragment. -/
inductive JSVal
  | num (q : ℚ)
  | bool (b : Bool)
  deriving DecidableEq

/-- JS truthiness of a value of the fragment. -/
def truthy : JSVal → Bool
  | JSVal.num q => decide (q ≠ 0)
  | JSVal.bool b => b

/-- JS `ToNumber` coercion on the fragment values. -/
def toNumber : JSVal → ℚ
  | JSVal.num q => q
  | JSVal.bool b => if b then 1 else 0

/-- JS semantics of each binary operator of the fragment.  `&&`/`||` return
one of their operand values (short-circuit value semantics); comparisons
coerce both operands with `ToNumber`; `===`/`!==` compare type-strictly. -/
def applyOp : Tok → JSVal → JSVal → JSVal
  | Tok.andand, a, b => if truthy a then b else a
  | Tok.oror, a, b => if truthy a then a else b
  | Tok.lt, a, b => JSVal.bool (decide (toNumber a < toNumber b))
  | Tok.le, a, b => JSVal.bool (decide (toNumber a ≤ toNumber b))
  | Tok.gt, a, b => JSVal.bool (decide (toNumber b < toNumber a))
  | Tok.ge, a, b => JSVal.bool (decide (toNumber b ≤ toNumber a))
  | Tok.looseEq, a, b => JSVal.bool (decide (toNumber a = toNumber b))
  | Tok.looseNe, a, b => JSVal.bool (!(decide (toNumber a = toNumber b)))
  | Tok.strictEq, JSVal.num p, JSVal.num q => JSVal.bool (decide (p = q))
  | Tok.strictEq, JSVal.bool p, JSVal.bool q => JSVal.bool (p == q)
  | Tok.strictEq, _, _ => JSVal.bool false
  | Tok.strictNe, JSVal.num p, JSVal.num q => JSVal.bool (!(decide (p = q)))
  | Tok.strictNe, JSVal.bool p, JSVal.bool q => JSVal.bool (!(p == q))
  | Tok.strictNe, _, _ => JSVal.bool true
  | _, a, _ => a

/-- Precedence level of each binary operator (JS precedence: `||` below `&&`
below equality below relational operators). -/
def opLevel : Tok → Option ℕ
  | Tok.oror => some 0
  | Tok.andand => some 1
  | Tok.looseEq => some 2
  | Tok.looseNe => some 2
  | Tok.strictEq => some 2
  | Tok.strictNe => some 2
  | Tok.lt => some 3
  | Tok.le => some 3
  | Tok.gt => some 3
  | Tok.ge => some 3
  | _ => none

mutual

/-- Fueled recursive-descent parser/evaluator, one function per precedence
level (level 4 = primary: numeral, unary minus, parenthesised expression).
The whole expression is parsed before any boolean combination is taken, as in
JS where parsing precedes evaluation. -/
def parseLevel : ℕ → ℕ → List Tok → Option (JSVal × List Tok)
  | 0, _, _ => none
  | _ + 1, 4, Tok.num q :: rest => some (JSVal.num q, rest)
  | f + 1, 4, Tok.minus :: rest =>
    match parseLevel f 4 rest with
    | some (v, r) => some (JSVal.num (-(toNumber v)), r)
    | none => none
  | f + 1, 4, Tok.lparen :: rest =>
    match parseLevel f 0 rest with
    | some (v, Tok.rparen :: r) => some (v, r)
    | _ => none
  | _ + 1, 4, _ => none
  | f + 1, lvl, ts =>
    match parseLevel f (lvl + 1) ts with
    | some (v, rest) => parseChain f lvl v rest
    | none => none

/-- Left-associative chain of operators of one precedence level. -/
def parseChain : ℕ → ℕ → JSVal → List Tok → Option (JSVal × List Tok)
  | 0, _, _, _ => none
  | _ + 1, _, v, [] => some (v, [])
  | f + 1, lvl, v, t :: rest =>
    if opLevel t = some lvl then
      match parseLevel f (lvl + 1) rest with
      | some (w, r) => parseChain f lvl (applyOp t v w) r
      | none => none
    else some (v, t :: rest)

end

/-- Parse and evaluate a token stream from the lowest precedence level,
requiring the whole input to be consumed. -/
def runParse (ts : List Tok) : Option JSVal :=
  match parseLevel (4 * ts.length + 8) 0 ts with
  | some (v, []) => some v
  | _ => none

/-- Evaluate a JS expression string of the fragment: tokenize, parse from the
lowest precedence level, and require the whole input to be consumed.
`none` models a thrown exception. -/
def jsEval (l : List Char) : Option JSVal :=
  match tokenize l with
  | none => none
  | some ts => runParse ts

/-! ### store.ts: rule evaluation and classification -/

/-- Quadrant record (types/index: `id`, `name`, `description`, `implication`,
`rule`, `color`). -/
structure Quadrant where
  id : String
  name : String
  description : String
  implication : String
  rule : String
  color : String
  deriving DecidableEq

/-- store.ts:353-361.  Substitute the coordinates into the rule text,
dynamically evaluate the resulting expression, and absorb any thrown error as
`false`; the boolean coercion of the returned value is the one applied by the
`if` of the caller. -/
def evaluateQuadrantRule (rule : String) (x y : ℚ) : Bool :=
  match jsEval (ruleExpression rule x y) with
  | some v => truthy v
  | none => false

/-- store.ts:344-351.  First quadrant (in list order) whose rule evaluates to
a truthy value; `none` when no rule matches. -/
def getQuadrantForItem (x y : ℚ) (quadrants : List Quadrant) : Option Quadrant :=
  match quadrants with
  | [] => none
  | q :: rest =>
    if evaluateQuadrantRule q.rule x y then some q else getQuadrantForItem x y rest

/-- store.ts:363-403.  The canonical default four-quadrant set. -/
def generateDefaultQuadrants (xLabel yLabel : String) : List Quadrant :=
  let xLow := "Low " ++ xLabel
  let xHigh := "High " ++ xLabel
  let yLow := "Low " ++ yLabel
  let yHigh := "High " ++ yLabel
  [ { id := "Q1"
      name := xHigh ++ " / " ++ yHigh
      description := "Items with high " ++ xLabel.toLower ++ " and high " ++ yLabel.toLower
      implication := "High priority items requiring immediate attention"
      rule := "x >= 50 && y >= 50"
      color := "#ef4444" },
    { id := "Q2"
      name := xLow ++ " / " ++ yHigh
      description := "Items with low " ++ xLabel.toLower ++ " and high " ++ yLabel.toLower
      implication := "Important but not urgent items"
      rule := "x < 50 && y >= 50"
      color := "#f97316" },
    { id := "Q3"
      name := xLow ++ " / " ++ yLow
      description := "Items with low " ++ xLabel.toLower ++ " and low " ++ yLabel.toLower
      implication := "Low priority items that can be deprioritized"
      rule := "x < 50 && y < 50"
      color := "#22c55e" },
    { id := "Q4"
      name := xHigh ++ " / " ++ yLow
      description := "Items with high " ++ xLabel.toLower ++ " and low " ++ yLabel.toLower
      implication := "Items that may need attention but are not critical"
      rule := "x >= 50 && y < 50"
      color := "#3b82f6" } ]

/-! ### Data model of the analysis result -/

/-- Axes record (`axes.x`, `axes.y`, `axes.rationale`). -/
structure Axes where
  x : String
  y : String
  rationale : String
  deriving DecidableEq

/-- Analysis item as produced by the analyzer. -/
structure AnalysisItem where
  name : String
  x : ℚ
  y : ℚ
  confidence : ℚ
  rationale : String
  citations : List String
  deriving DecidableEq

/-- Result metadata.  The wall-clock fields (`analysisId`, `timestamp`,
`domain`, `textLength`) added by the route are external identifiers and time
measurements and are omitted; `usingMockData` is `none` before the route adds
the field. -/
structure AnalysisMetadata where
  processing_time : ℚ
  confidence : ℚ
  usingMockData : Option Bool := none
  deriving DecidableEq

/-- Complete analysis result. -/
structure AnalysisResult where
  axes : Axes
  items : List AnalysisItem
  quadrants : List Quadrant
  insights : List String
  metadata : AnalysisMetadata
  deriving DecidableEq

/-- Domain hint of an analysis request. -/
inductive Domain
  | risk | priority | investments | sports | auto
  deriving DecidableEq

/-! ### part_004: generateDataInsights -/

/-- Insight categories of `GeneratedInsight.type` in part_004. -/
inductive InsightType
  | distribution | confidence | outliers | patterns | recommendations
  deriving DecidableEq

/-- Generated data insight (the `icon` field holds the name of the heroicon
component the source stores there). -/
structure GeneratedInsight where
  type : InsightType
  title : String
  description : String
  icon : String
  color : String
  items : Option (List AnalysisItem) := none
  deriving DecidableEq

/-- JS `Number.prototype.toFixed`: round to `f` fractional digits, choosing
the larger candidate on ties, and render with exactly `f` digits after the
point.  (Only applied to nonnegative values by the modelled code.) -/
def jsToFixed (f : ℕ) (q : ℚ) : String :=
  let n : ℤ := ⌊q * 10 ^ f + mkRat 1 2⌋
  let a := n.natAbs
  let sign := if n < 0 then "-" else ""
  if f = 0 then sign ++ String.mk (natDigits a)
  else sign ++ String.mk (natDigits (a / 10 ^ f)) ++ "." ++ String.mk (padDigits f (a % 10 ^ f))

/-- Decimal string of a natural number (JS template interpolation of an
integer-valued number). -/
def natStr (n : ℕ) : String := String.mk (natDigits n)

/-- part_004:379-385.  Items of each quadrant, computed by classifying every
item with `getQuadrantForItem` and comparing ids (`itemQuadrant?.id === q.id`
is `false` when the item is unclassified). -/
def classifiedItems (items : List AnalysisItem) (quadrants : List Quadrant)
    (q : Quadrant) : List AnalysisItem :=
  items.filter fun item =>
    match getQuadrantForItem item.x item.y quadrants with
    | some iq => decide (iq.id = q.id)
    | none => false

/-- The pairs `(quadrant, items in it)` of part_004:379-385. -/
def quadrantCounts (items : List AnalysisItem) (quadrants : List Quadrant) :
    List (Quadrant × List AnalysisItem) :=
  quadrants.map fun q => (q, classifiedItems items quadrants q)

/-- Reducer of part_004:387-389: keep the pair with the strictly larger item
count, the earlier one on ties. -/
def maxStep (max cur : Quadrant × List AnalysisItem) : Quadrant × List AnalysisItem :=
  if max.2.length < cur.2.length then cur else max

/-- JS `Array.prototype.reduce` without initial value: `none` models the
`TypeError` it throws on an empty array. -/
def jsReduce1 {α : Type} (f : α → α → α) : List α → Option α
  | [] => none
  | a :: l => some (l.foldl f a)

/-- The clustering insight of part_004:391-400 (the description names the
winning quadrant and its percentage of all items). -/
def distInsight (items : List AnalysisItem) (m : Quadrant × List AnalysisItem) :
    GeneratedInsight :=
  { type := InsightType.distribution
    title := "Clustering Detected"
    description := jsToFixed 0 (mkRat (m.2.length * 100) items.length) ++
      "% of items are concentrated in the \"" ++ m.1.name ++
      "\" quadrant, suggesting a clear pattern in your data."
    icon := "BullseyeIcon"
    color := "blue"
    items := some m.2 }

/-- The high-confidence insight of part_004:406-415. -/
def highConfInsight (items hc : List AnalysisItem) : GeneratedInsight :=
  { type := InsightType.confidence
    title := "High Analysis Confidence"
    description := natStr hc.length ++ " out of " ++ natStr items.length ++
      " items have high confidence scores (>80%), indicating reliable positioning."
    icon := "ArrowTrendingUpIcon"
    color := "green"
    items := some hc }

/-- The low-confidence insight of part_004:417-426. -/
def lowConfInsight (lc : List AnalysisItem) : GeneratedInsight :=
  { type := InsightType.confidence
    title := "Some Uncertain Positions"
    description := natStr lc.length ++
      " items have lower confidence scores, which may require additional context or data for better positioning."
    icon := "ExclamationTriangleIcon"
    color := "yellow"
    items := some lc }

/-- part_004:429-431.  An item is an outlier exactly when its `x` or `y`
coordinate is outside `[10, 90]`. -/
def outlierItems (items : List AnalysisItem) : List AnalysisItem :=
  items.filter fun item =>
    decide ((90 < item.x ∨ item.x < 10) ∨ (90 < item.y ∨ item.y < 10))

/-- The outlier insight of part_004:433-442. -/
def outlierInsight (outs : List AnalysisItem) : GeneratedInsight :=
  { type := InsightType.outliers
    title := "Extreme Positions Identified"
    description := natStr outs.length ++
      " items are positioned at extreme values, representing either exceptional cases or edge scenarios worth special attention."
    icon := "ExclamationTriangleIcon"
    color := "red"
    items := some outs }

/-- The high-x pattern insight of part_004:448-456. -/
def patternXInsight (axes : Axes) (xAverage : ℚ) : GeneratedInsight :=
  { type := InsightType.patterns
    title := "High " ++ axes.x ++ " Tendency"
    description := "Most items show high " ++ axes.x.toLower ++
      " values (average: " ++ jsToFixed 1 xAverage ++
      "), indicating a general trend toward this characteristic."
    icon := "ArrowTrendingUpIcon"
    color := "blue" }

/-- The high-y pattern insight of part_004:458-466. -/
def patternYInsight (axes : Axes) (yAverage : ℚ) : GeneratedInsight :=
  { type := InsightType.patterns
    title := "High " ++ axes.y ++ " Pattern"
    description := "The majority of items demonstrate high " ++ axes.y.toLower ++
      " (average: " ++ jsToFixed 1 yAverage ++
      "), suggesting this is a dominant theme."
    icon := "ArrowTrendingUpIcon"
    color := "purple" }

/-- The recommendation insight of part_004:469-479. -/
def recoInsight (axes : Axes) (tr : List AnalysisItem) : GeneratedInsight :=
  { type := InsightType.recommendations
    title := "Priority Focus Areas"
    description := natStr tr.length ++ " items in the high-" ++ axes.x ++
      "/high-" ++ axes.y ++
      " area represent your highest priority opportunities requiring immediate attention."
    icon := "BullseyeIcon"
    color := "green"
    items := some tr }

/-- part_004:371-482, `generateDataInsights`.  The result is `none` exactly
when the initial `quadrantCounts.reduce(...)` throws (empty quadrant list).
Notes on exact arithmetic: the JS thresholds `items.length * 0.4` (resp.
`* 0.7`, `* 0.3`) are written `mkRat (2 * n) 5` (resp. `mkRat (7 * n) 10`,
`mkRat (3 * n) 10`), their exact values; the double products round to exactly
these values for every item count, so no branch differs from JS.  With an
empty item list JS computes `xAverage = NaN` and `NaN > 60` is `false`; the
model computes `0 / 0 = 0` and `0 > 60` is `false` - the same branch. -/
def generateDataInsights (items : List AnalysisItem) (quadrants : List Quadrant)
    (axes : Axes) : Option (List GeneratedInsight) :=
  match jsReduce1 maxStep (quadrantCounts items quadrants) with
  | none => none
  | some maxQuadrant =>
    let distL := if mkRat (2 * items.length) 5 < (maxQuadrant.2.length : ℚ) then
      [distInsight items maxQuadrant] else []
    let highConfidenceItems := items.filter fun item => decide (mkRat 4 5 < item.confidence)
    let lowConfidenceItems := items.filter fun item => decide (item.confidence < mkRat 3 5)
    let hcL := if mkRat (7 * items.length) 10 < (highConfidenceItems.length : ℚ) then
      [highConfInsight items highConfidenceItems] else []
    let lcL := if mkRat (3 * items.length) 10 < (lowConfidenceItems.length : ℚ) then
      [lowConfInsight lowConfidenceItems] else []
    let outs := outlierItems items
    let outL := if 0 < outs.length then [outlierInsight outs] else []
    let xAverage := (items.map fun item => item.x).sum / (items.length : ℚ)
    let yAverage := (items.map fun item => item.y).sum / (items.length : ℚ)
    let pxL := if (60 : ℚ) < xAverage then [patternXInsight axes xAverage] else []
    let pyL := if (60 : ℚ) < yAverage then [patternYInsight axes yAverage] else []
    let topRightItems := items.filter fun item => decide (70 < item.x ∧ 70 < item.y)
    let recL := if 0 < topRightItems.length then [recoInsight axes topRightItems] else []
    some (distL ++ hcL ++ lcL ++ outL ++ pxL ++ pyL ++ recL)

/-! ### openai.ts and route.ts: orchestration -/

/-- openai.ts:72-75.  Overall confidence: arithmetic mean of the item
confidences, `0` for an empty item list. -/
def overallConfidence (items : List AnalysisItem) : ℚ :=
  if 0 < items.length then
    (items.map fun item => item.confidence).sum / (items.length : ℚ)
  else 0

/-- openai.ts:216-264, `createMockAnalysis`: the fixed deterministic
placeholder result (confidences 0.9/0.8/0.7 and the metadata values 2.5/0.8
written via `mkRat` with their exact values). -/
def createMockAnalysis (text : String) (domain : Domain) : AnalysisResult :=
  let axes : Axes :=
    { x := if domain = Domain.risk then "Probability" else "Importance"
      y := if domain = Domain.risk then "Impact" else "Urgency"
      rationale := "These variables provide the best separation of items in the content" }
  { axes := axes
    items :=
      [ { name := "Item A", x := 75, y := 85, confidence := mkRat 9 10
          rationale := "High on both dimensions based on content analysis"
          citations := ["Sample citation from text..."] },
        { name := "Item B", x := 25, y := 65, confidence := mkRat 4 5
          rationale := "Low X but moderate Y based on characteristics"
          citations := ["Another sample citation..."] },
        { name := "Item C", x := 60, y := 30, confidence := mkRat 7 10
          rationale := "Moderate X but low Y value"
          citations := ["Third citation example..."] } ]
    quadrants := generateDefaultQuadrants axes.x axes.y
    insights :=
      [ "Most items cluster in the high-impact region",
        "There is a clear separation between high and low probability items",
        "Focus attention on the high-probability, high-impact quadrant first" ]
    metadata := { processing_time := mkRat 5 2, confidence := mkRat 4 5 } }

/-- The note prepended by route.ts:56-58 when the analyzer call failed. -/
def mockNoteFailure : String :=
  "Note: This is a demonstration analysis. Configure OpenAI API key for full AI-powered analysis."

/-- The note prepended by route.ts:65-67 when no API key is configured. -/
def mockNoteDemo : String :=
  "Demo Mode: This is sample analysis. Configure OpenAI API key for AI-powered analysis."

/-- route.ts:37-93, the analysis decision logic of `POST` after request
validation: `analyzerResult = none` models `analyzeContent` throwing
(analyzer unavailable or failed); the route then falls back to
`createMockAnalysis` and finally adds `usingMockData := !hasApiKey` to the
metadata.  Request validation, storage and the time-stamp metadata are
external to this logic and omitted. -/
def postAnalyzeCore (hasApiKey : Bool) (analyzerResult : Option AnalysisResult)
    (text : String) (domain : Domain) : AnalysisResult :=
  let base :=
    if hasApiKey then
      match analyzerResult with
      | some r => r
      | none =>
        let m := createMockAnalysis text domain
        { m with insights := mockNoteFailure :: m.insights }
    else
      let m := createMockAnalysis text domain
      { m with insights := mockNoteDemo :: m.insights }
  { base with metadata := { base.metadata with usingMockData := some (!hasApiKey) } }

/-! ### part_003: the scatter-plot marker colour -/

/-- part_003:394-406.  Colour of an item's marker: the first quadrant whose
id matches the hardcoded 50/50 split test at the item's position, with a
default blue when none matches.  This is the renderer's own quadrant
detection, independent of the rule-based classifier. -/
def plotMarkerColor (quadrants : List Quadrant) (item : AnalysisItem) : String :=
  match quadrants.find? (fun q =>
    if q.id = "Q1" then decide (50 ≤ item.x) && decide (50 ≤ item.y)
    else if q.id = "Q2" then decide (item.x < 50) && decide (50 ≤ item.y)
    else if q.id = "Q3" then decide (item.x < 50) && decide (item.y < 50)
    else if q.id = "Q4" then decide (50 ≤ item.x) && decide (item.y < 50)
    else false) with
  | some q => q.color
  | none => "#3b82f6"

/-! ### Concrete fixtures used by witnesses and counterexamples -/

/-- Test item constructor (rationale and citations are irrelevant to the
classification and aggregation logic). -/
def mkItem (name : String) (x y confidence : ℚ) : AnalysisItem :=
  { name := name, x := x, y := y, confidence := confidence, rationale := "", citations := [] }

/-- Ten items: five at (75,75) (default Q1), two at (25,75), two at (25,25),
one at (75,25). -/
def demoItems10 : List AnalysisItem :=
  [ mkItem ("a1") 75 75 (mkRat 9 10), mkItem ("a2") 75 75 (mkRat 9 10),
    mkItem ("a3") 75 75 (mkRat 9 10), mkItem ("a4") 75 75 (mkRat 9 10),
    mkItem ("a5") 75 75 (mkRat 9 10),
    mkItem ("b1") 25 75 (mkRat 9 10), mkItem ("b2") 25 75 (mkRat 9 10),
    mkItem ("c1") 25 25 (mkRat 9 10), mkItem ("c2") 25 25 (mkRat 9 10),
    mkItem ("d1") 75 25 (mkRat 9 10) ]

/-- Axes fixture. -/
def demoAxes : Axes := { x := "Urgency", y := "Importance", rationale := "demo" }

/-- An item at (95, 50): an outlier (x > 90). -/
def itemAt95 : AnalysisItem := mkItem ("edge") 95 50 (mkRat 9 10)

/-- An item at (50, 50): not an outlier. -/
def itemAt50 : AnalysisItem := mkItem ("mid") 50 50 (mkRat 9 10)

/-- A custom (non-default) quadrant whose rule differs from the hardcoded
50/50 split the renderer assumes for the id Q1. -/
def customQuadrant : Quadrant :=
  { id := "Q1", name := "Custom", description := "", implication := ""
    rule := "x >= 30 && y >= 30", color := "#ef4444" }

/-- An item at (40, 60): inside the custom rule region, outside the
hardcoded `x >= 50` region. -/
def itemAt4060 : AnalysisItem := mkItem ("p") 40 60 (mkRat 9 10)

/-- A quadrant whose rule contains a call to an unknown identifier - legal
input for the source's dynamic evaluation pipeline, outside the spec
grammar. -/
def alertQuadrant : Quadrant :=
  { id := "QA", name := "Alert", description := "", implication := ""
    rule := "x > 50 && alert(1)", color := "#000000" }

/-! ## Lemmas on decimal digits and numeral round-trips -/

theorem charVal_digitChar : ∀ d < 10, charVal (digitChar d) = d := by decide

theorem digitChar_isDigitCh (d : ℕ) : isDigitCh (digitChar d) = true := by
  match d with
  | 0 | 1 | 2 | 3 | 4 | 5 | 6 | 7 | 8 | 9 => decide
  | d + 10 => exact (by decide : isDigitCh '0' = true)

theorem digAux_eq (n : ℕ) : ∀ f, n < f → digAux f n = natDigits n := by
  induction n using Nat.strong_induction_on with
  | _ n ih =>
    intro f hf
    match f, hf with
    | g + 1, hf =>
      show digAux (g + 1) n = digAux (n + 1) n
      by_cases h10 : n < 10
      · simp [digAux, h10]
      · have hd : n / 10 < n := Nat.div_lt_self (by omega) (by omega)
        simp only [digAux, if_neg h10]
        rw [ih (n / 10) hd g (by omega), ih (n / 10) hd n (by omega)]

theorem natDigits_lt10 (n : ℕ) (h : n < 10) : natDigits n = [digitChar n] := by
  show digAux (n + 1) n = _
  simp [digAux, h]

theorem natDigits_ge10 (n : ℕ) (h : ¬ n < 10) :
    natDigits n = natDigits (n / 10) ++ [digitChar (n % 10)] := by
  show digAux (n + 1) n = _
  simp only [digAux, if_neg h]
  rw [digAux_eq (n / 10) n (by omega)]

theorem parseNat_append (l : List Char) (c : Char) :
    parseNat (l ++ [c]) = 10 * parseNat l + charVal c := by
  simp [parseNat, List.foldl_append]

theorem parseNat_natDigits (n : ℕ) : parseNat (natDigits n) = n := by
  induction n using Nat.strong_induction_on with
  | _ n ih =>
    by_cases h10 : n < 10
    · rw [natDigits_lt10 n h10]
      simp [parseNat, charVal_digitChar n h10]
    · rw [natDigits_ge10 n h10, parseNat_append,
        ih (n / 10) (Nat.div_lt_self (by omega) (by omega)),
        charVal_digitChar (n % 10) (by omega)]
      omega

theorem natDigits_ne_nil (n : ℕ) : natDigits n ≠ [] := by
  by_cases h10 : n < 10
  · rw [natDigits_lt10 n h10]; simp
  · rw [natDigits_ge10 n h10]; simp

theorem natDigits_isDigitCh (n : ℕ) : ∀ c ∈ natDigits n, isDigitCh c = true := by
  induction n using Nat.strong_induction_on with
  | _ n ih =>
    intro c hc
    by_cases h10 : n < 10
    · rw [natDigits_lt10 n h10] at hc
      simp at hc
      subst hc
      exact digitChar_isDigitCh n
    · rw [natDigits_ge10 n h10] at hc
      rcases List.mem_append.mp hc with h | h
      · exact ih (n / 10) (Nat.div_lt_self (by omega) (by omega)) c h
      · simp at h
        subst h
        exact digitChar_isDigitCh (n % 10)

theorem natDigits_length_le (n : ℕ) : ∀ k, 1 ≤ k → n < 10 ^ k →
    (natDigits n).length ≤ k := by
  induction n using Nat.strong_induction_on with
  | _ n ih =>
    intro k hk hn
    by_cases h10 : n < 10
    · rw [natDigits_lt10 n h10]; simpa using hk
    · rw [natDigits_ge10 n h10]
      have hk2 : 2 ≤ k := by
        by_contra hlt
        have hk1 : k = 1 := by omega
        subst hk1
        simp at hn
        omega
      have hdiv : n / 10 < 10 ^ (k - 1) := by
        rw [Nat.div_lt_iff_lt_mul (by omega : 0 < 10)]
        calc n < 10 ^ k := hn
        _ = 10 ^ (k - 1) * 10 := by
          rw [← pow_succ]
          congr 1
          omega
      have := ih (n / 10) (Nat.div_lt_self (by omega) (by omega)) (k - 1) (by omega) hdiv
      simp [List.length_append]
      omega

theorem parseNat_replicate_zero (j : ℕ) (l : List Char) :
    parseNat (List.replicate j '0' ++ l) = parseNat l := by
  induction j with
  | zero => simp
  | succ j ihj =>
    have h0 : 10 * 0 + charVal '0' = 0 := by decide
    simpa [List.replicate_succ, parseNat, h0] using ihj

theorem parseNat_padDigits (k r : ℕ) : parseNat (padDigits k r) = r := by
  unfold padDigits
  rw [parseNat_replicate_zero, parseNat_natDigits]

theorem padDigits_length (k r : ℕ) (hk : 1 ≤ k) (h : r < 10 ^ k) :
    (padDigits k r).length = k := by
  have := natDigits_length_le r k hk h
  simp [padDigits]
  omega

theorem padDigits_isDigitCh (k r : ℕ) : ∀ c ∈ padDigits k r, isDigitCh c = true := by
  intro c hc
  rcases List.mem_append.mp hc with h | h
  · rw [List.eq_of_mem_replicate h]; decide
  · exact natDigits_isDigitCh r c h

theorem takeWhile_append_split {α : Type} (p : α → Bool) (a b : List α)
    (ha : ∀ c ∈ a, p c = true)
    (hb : ∀ x, b.head? = some x → p x = false) :
    (a ++ b).takeWhile p = a ∧ (a ++ b).dropWhile p = b := by
  induction a with
  | nil =>
    simp only [List.nil_append]
    cases b with
    | nil => simp
    | cons x l =>
      have hx := hb x rfl
      simp [List.takeWhile_cons, List.dropWhile_cons, hx]
  | cons c a iha =>
    have hc := ha c (by simp)
    have iha' := iha fun d hd => ha d (by simp [hd])
    simp [List.takeWhile_cons, List.dropWhile_cons, hc, iha'.1, iha'.2]

theorem ratDecRender_eq (q : ℚ) (hd : FiniteDecimal q) :
    ratDecRender q =
      natDigits (q.num.toNat * 10 ^ q.den / q.den / 10 ^ q.den) ++
        '.' :: padDigits q.den (q.num.toNat * 10 ^ q.den / q.den % 10 ^ q.den) := by
  unfold ratDecRender
  simp only [FiniteDecimal] at hd
  simp [hd]

theorem ratDecRender_isNumCh (q : ℚ) (hd : FiniteDecimal q) :
    ∀ c ∈ ratDecRender q, isNumCh c = true := by
  rw [ratDecRender_eq q hd]
  intro c hc
  have hdig : ∀ d : Char, isDigitCh d = true → isNumCh d = true := by
    intro d h
    simp [isNumCh, h]
  rcases List.mem_append.mp hc with h | h
  · exact hdig c (natDigits_isDigitCh _ c h)
  · rcases List.mem_cons.mp h with h | h
    · subst h; decide
    · exact hdig c (padDigits_isDigitCh _ _ c h)

theorem ratDecRender_ne_nil (q : ℚ) (hd : FiniteDecimal q) : ratDecRender q ≠ [] := by
  rw [ratDecRender_eq q hd]
  intro h
  rcases List.append_eq_nil.mp h with ⟨h1, h2⟩
  exact natDigits_ne_nil _ h1

theorem parseNumeral_ratDecRender (q : ℚ) (h0 : 0 ≤ q) (hd : FiniteDecimal q) :
    parseNumeral (ratDecRender q) = some q := by
  have hden : q.den ∣ 10 ^ q.den := Nat.dvd_of_mod_eq_zero hd
  have hk1 : 1 ≤ q.den := q.pos
  have hkpow : 0 < 10 ^ q.den := Nat.pos_pow_of_pos q.den (by omega)
  have hmul : q.num.toNat * 10 ^ q.den / q.den * q.den = q.num.toNat * 10 ^ q.den :=
    Nat.div_mul_cancel (hden.mul_left q.num.toNat)
  set k := q.den with hkdef
  set m := q.num.toNat * 10 ^ k / k with hmdef
  have hmq : (m : ℚ) = q * 10 ^ k := by
    have hcast : (m : ℚ) * (k : ℚ) = (q.num.toNat : ℚ) * ((10 : ℚ) ^ k) := by
      exact_mod_cast congrArg (fun n : ℕ => (n : ℚ)) hmul
    have hnum : (q.num.toNat : ℚ) = (q.num : ℚ) := by
      exact_mod_cast congrArg (fun z : ℤ => (z : ℚ))
        (Int.toNat_of_nonneg (Rat.num_nonneg.mpr h0))
    have hq : (q.num : ℚ) = q * (k : ℚ) := by
      rw [hkdef]
      field_simp [Rat.num_div_den]
    have hk0 : (k : ℚ) ≠ 0 := Nat.cast_ne_zero.mpr (by omega)
    rw [hnum, hq] at hcast
    refine mul_right_cancel₀ hk0 ?_
    linear_combination hcast
  have hsplit := takeWhile_append_split isDigitCh (natDigits (m / 10 ^ k))
    ('.' :: padDigits k (m % 10 ^ k)) (natDigits_isDigitCh _)
    (by intro x hx; simp at hx; subst hx; decide)
  have hmod : m % 10 ^ k < 10 ^ k := Nat.mod_lt m hkpow
  have hlen : (padDigits k (m % 10 ^ k)).length = k := padDigits_length k _ hk1 hmod
  have hne := natDigits_ne_nil (m / 10 ^ k)
  obtain ⟨d0, ds, hdds⟩ := List.exists_cons_of_ne_nil hne
  rw [ratDecRender_eq q hd]
  unfold parseNumeral
  simp only [← hkdef, ← hmdef, hsplit.1, hsplit.2]
  have hempty : (natDigits (m / 10 ^ k)).isEmpty = false := by
    rw [hdds]; rfl
  have hall : (padDigits k (m % 10 ^ k)).all isDigitCh = true :=
    List.all_eq_true.mpr (padDigits_isDigitCh k _)
  simp only [hempty, hall, Bool.not_false, Bool.true_or, Bool.and_self, if_true,
    Bool.true_and, Bool.or_true]
  rw [parseNat_natDigits, parseNat_padDigits, hlen]
  have hdm : m / 10 ^ k * 10 ^ k + m % 10 ^ k = m := by
    rw [mul_comm]
    exact Nat.div_add_mod m (10 ^ k)
  have hz : ((m / 10 ^ k : ℕ) : ℤ) * (10 : ℤ) ^ k + ((m % 10 ^ k : ℕ) : ℤ) = (m : ℤ) := by
    exact_mod_cast congrArg (fun n : ℕ => (n : ℤ)) hdm
  rw [hz]
  congr 1
  rw [Rat.mkRat_eq_div]
  have hp0 : ((10 : ℚ) ^ k) ≠ 0 := by positivity
  push_cast
  rw [hmq, mul_div_assoc, div_self hp0, mul_one]

/-! ## Lemmas on the tokenizer -/

theorem length_dropWhile_le {α : Type} (p : α → Bool) (l : List α) :
    (l.dropWhile p).length ≤ l.length := by
  induction l with
  | nil => simp
  | cons a l ihl =>
    rw [List.dropWhile_cons]
    split
    · simp only [List.length_cons]; omega
    · simp

theorem tokAux_congr : ∀ (n : ℕ) (l : List Char), l.length = n →
    ∀ f g, l.length < f → l.length < g → tokAux f l = tokAux g l := by
  intro n
  induction n using Nat.strong_induction_on with
  | _ n ih =>
    intro l hln f g hf hg
    match f, g with
    | f + 1, g + 1 =>
      cases l with
      | nil => rfl
      | cons c cs =>
        simp only [List.length_cons] at hln hf hg
        have hcs : ∀ l2 : List Char, l2.length ≤ cs.length → tokAux f l2 = tokAux g l2 := by
          intro l2 hl2
          exact ih l2.length (by omega) l2 rfl f g (by omega) (by omega)
        simp only [tokAux]
        by_cases h1 : c = ' '
        · simp only [if_pos h1]; exact hcs cs (by omega)
        simp only [if_neg h1]
        by_cases h2 : c = '('
        · simp only [if_pos h2]; rw [hcs cs (by omega)]
        simp only [if_neg h2]
        by_cases h3 : c = ')'
        · simp only [if_pos h3]; rw [hcs cs (by omega)]
        simp only [if_neg h3]
        by_cases h4 : c = '-'
        · simp only [if_pos h4]; rw [hcs cs (by omega)]
        simp only [if_neg h4]
        by_cases h5 : c = '&'
        · simp only [if_pos h5]
          cases cs with
          | nil => rfl
          | cons d cs2 =>
            by_cases hd : d = '&'
            · simp only [if_pos hd]
              rw [hcs cs2 (by simp only [List.length_cons]; omega)]
            · simp only [if_neg hd]
        simp only [if_neg h5]
        by_cases h6 : c = '|'
        · simp only [if_pos h6]
          cases cs with
          | nil => rfl
          | cons d cs2 =>
            by_cases hd : d = '|'
            · simp only [if_pos hd]
              rw [hcs cs2 (by simp only [List.length_cons]; omega)]
            · simp only [if_neg hd]
        simp only [if_neg h6]
        by_cases h7 : c = '<'
        · simp only [if_pos h7]
          cases cs with
          | nil => rw [hcs [] (by simp)]
          | cons d cs2 =>
            by_cases hd : d = '='
            · simp only [if_pos hd]
              rw [hcs cs2 (by simp only [List.length_cons]; omega)]
            · simp only [if_neg hd]
              rw [hcs (d :: cs2) (by omega)]
        simp only [if_neg h7]
        by_cases h8 : c = '>'
        · simp only [if_pos h8]
          cases cs with
          | nil => rw [hcs [] (by simp)]
          | cons d cs2 =>
            by_cases hd : d = '='
            · simp only [if_pos hd]
              rw [hcs cs2 (by simp only [List.length_cons]; omega)]
            · simp only [if_neg hd]
              rw [hcs (d :: cs2) (by omega)]
        simp only [if_neg h8]
        by_cases h9 : c = '='
        · simp only [if_pos h9]
          cases cs with
          | nil => rfl
          | cons d cs2 =>
            by_cases hd : d = '='
            · simp only [if_pos hd]
              cases cs2 with
              | nil => rw [hcs [] (by simp)]
              | cons e cs3 =>
                by_cases he : e = '='
                · simp only [if_pos he]
                  rw [hcs cs3 (by simp only [List.length_cons]; omega)]
                · simp only [if_neg he]
                  rw [hcs (e :: cs3) (by simp only [List.length_cons]; omega)]
            · simp only [if_neg hd]
        simp only [if_neg h9]
        by_cases h10 : c = '!'
        · simp only [if_pos h10]
          cases cs with
          | nil => rfl
          | cons d cs2 =>
            by_cases hd : d = '='
            · simp only [if_pos hd]
              cases cs2 with
              | nil => rw [hcs [] (by simp)]
              | cons e cs3 =>
                by_cases he : e = '='
                · simp only [if_pos he]
                  rw [hcs cs3 (by simp only [List.length_cons]; omega)]
                · simp only [if_neg he]
                  rw [hcs (e :: cs3) (by simp only [List.length_cons]; omega)]
            · simp only [if_neg hd]
        simp only [if_neg h10]
        by_cases hnum : isNumCh c
        · simp only [if_pos hnum]
          cases hpn : parseNumeral (c :: cs.takeWhile isNumCh) with
          | none => simp only [hpn]
          | some q =>
            simp only [hpn]
            rw [hcs (cs.dropWhile isNumCh) (length_dropWhile_le _ _)]
        · simp only [if_neg hnum]

theorem tokAux_big (f : ℕ) (l : List Char) (h : l.length < f) :
    tokAux f l = tokenize l :=
  tokAux_congr l.length l rfl f (l.length + 1) h (by omega)

theorem tokenize_nil : tokenize [] = some [] := rfl

theorem tokenize_space (cs : List Char) : tokenize (' ' :: cs) = tokenize cs := rfl

theorem tokenize_lt_space (cs : List Char) :
    tokenize ('<' :: ' ' :: cs) = (tokenize (' ' :: cs)).map (fun ts => Tok.lt :: ts) := rfl

theorem tokenize_ge (cs : List Char) :
    tokenize ('>' :: '=' :: cs) = (tokenize cs).map (fun ts => Tok.ge :: ts) := by
  have h : tokenize ('>' :: '=' :: cs) =
      (tokAux (cs.length + 2) cs).map (fun ts => Tok.ge :: ts) := rfl
  rw [h, tokAux_big (cs.length + 2) cs (by omega)]

theorem tokenize_amp (cs : List Char) :
    tokenize ('&' :: '&' :: cs) = (tokenize cs).map (fun ts => Tok.andand :: ts) := by
  have h : tokenize ('&' :: '&' :: cs) =
      (tokAux (cs.length + 2) cs).map (fun ts => Tok.andand :: ts) := rfl
  rw [h, tokAux_big (cs.length + 2) cs (by omega)]

theorem isNumCh_not_special (c : Char) (h : isNumCh c = true) :
    c ≠ ' ' ∧ c ≠ '(' ∧ c ≠ ')' ∧ c ≠ '-' ∧ c ≠ '&' ∧ c ≠ '|' ∧ c ≠ '<' ∧ c ≠ '>' ∧
      c ≠ '=' ∧ c ≠ '!' := by
  refine ⟨?_, ?_, ?_, ?_, ?_, ?_, ?_, ?_, ?_, ?_⟩ <;> rintro rfl <;> revert h <;> decide

theorem tokenize_numeral_lead (d0 : Char) (ds rest : List Char) (q : ℚ)
    (hd0 : isNumCh d0 = true)
    (hds : ∀ c ∈ ds, isNumCh c = true)
    (hrest : ∀ x, rest.head? = some x → isNumCh x = false)
    (hq : parseNumeral (d0 :: ds) = some q) :
    tokenize ((d0 :: ds) ++ rest) = (tokenize rest).map (fun ts => Tok.num q :: ts) := by
  obtain ⟨hs1, hs2, hs3, hs4, hs5, hs6, hs7, hs8, hs9, hs10⟩ := isNumCh_not_special d0 hd0
  have hsplit := takeWhile_append_split isNumCh ds rest hds hrest
  show tokAux (((d0 :: ds) ++ rest).length + 1) ((d0 :: ds) ++ rest) = _
  simp only [List.cons_append, List.length_cons]
  simp only [tokAux]
  rw [if_neg hs1, if_neg hs2, if_neg hs3, if_neg hs4, if_neg hs5, if_neg hs6, if_neg hs7,
    if_neg hs8, if_neg hs9, if_neg hs10, if_pos hd0]
  simp only [hsplit.1, hsplit.2, hq]
  rw [tokAux_big ((ds ++ rest).length + 1) rest (by simp only [List.length_append]; omega)]

theorem tokenize_render_lead (q : ℚ) (h0 : 0 ≤ q) (hd : FiniteDecimal q) (rest : List Char)
    (hrest : ∀ x, rest.head? = some x → isNumCh x = false) :
    tokenize (ratDecRender q ++ rest) = (tokenize rest).map (fun ts => Tok.num q :: ts) := by
  obtain ⟨d0, ds, hdds⟩ := List.exists_cons_of_ne_nil (ratDecRender_ne_nil q hd)
  have hall := ratDecRender_isNumCh q hd
  rw [hdds] at hall
  rw [hdds]
  exact tokenize_numeral_lead d0 ds rest q (hall d0 (by simp))
    (fun c hc => hall c (by simp [hc])) hrest
    (by rw [← hdds]; exact parseNumeral_ratDecRender q h0 hd)

theorem tokenize_fifty (rest : List Char)
    (hrest : ∀ x, rest.head? = some x → isNumCh x = false) :
    tokenize ('5' :: '0' :: rest) = (tokenize rest).map (fun ts => Tok.num 50 :: ts) :=
  tokenize_numeral_lead '5' ['0'] rest 50 (by decide)
    (by intro c hc; simp at hc; subst hc; decide) hrest (by decide)

/-! ## Lemmas on the substitution -/

theorem substAll_append (c : Char) (t : List Char) (a b : List Char) :
    substAll c t (a ++ b) = substAll c t a ++ substAll c t b := by
  induction a with
  | nil => simp [substAll]
  | cons d a iha => simp [substAll, iha]

theorem substAll_of_not_mem (c : Char) (t : List Char) (l : List Char)
    (h : ∀ d ∈ l, d ≠ c) : substAll c t l = l := by
  induction l with
  | nil => rfl
  | cons d l ihl =>
    have hd := h d (by simp)
    simp [substAll, hd, ihl fun e he => h e (by simp [he])]

theorem numToString_nonneg (q : ℚ) (h0 : 0 ≤ q) : numToString q = ratDecRender q := by
  unfold numToString
  rw [if_neg (not_lt.mpr h0)]

theorem numToString_no_xy (q : ℚ) (h0 : 0 ≤ q) (hd : FiniteDecimal q) :
    ∀ d ∈ numToString q, d ≠ 'x' ∧ d ≠ 'y' := by
  rw [numToString_nonneg q h0]
  intro d hdm
  have h := ratDecRender_isNumCh q hd d hdm
  constructor <;> rintro rfl <;> revert h <;> decide

/-! ## Evaluating the canonical default rules -/

theorem runParse_ge_ge (x a y b : ℚ) :
    runParse [Tok.num x, Tok.ge, Tok.num a, Tok.andand, Tok.num y, Tok.ge, Tok.num b] =
      some (applyOp Tok.andand (applyOp Tok.ge (JSVal.num x) (JSVal.num a))
        (applyOp Tok.ge (JSVal.num y) (JSVal.num b))) := rfl

theorem truthy_and_bool (p q : Bool) :
    truthy (applyOp Tok.andand (JSVal.bool p) (JSVal.bool q)) = (p && q) := by
  cases p <;> cases q <;> rfl

theorem evalRule_Q1 (x y : ℚ) (hx0 : 0 ≤ x) (hy0 : 0 ≤ y)
    (hdx : FiniteDecimal x) (hdy : FiniteDecimal y) :
    evaluateQuadrantRule ("x >= 50 && y >= 50") x y =
      (decide ((50 : ℚ) ≤ x) && decide ((50 : ℚ) ≤ y)) := by
  have hxy := numToString_no_xy x hx0 hdx
  have hexpr : ruleExpression ("x >= 50 && y >= 50") x y =
      ratDecRender x ++ ' ' :: '>' :: '=' :: ' ' :: '5' :: '0' :: ' ' :: '&' :: '&' :: ' ' ::
        (ratDecRender y ++ ' ' :: '>' :: '=' :: ' ' :: '5' :: '0' :: []) := by
    unfold ruleExpression
    have h1 : substAll 'x' (numToString x) (("x >= 50 && y >= 50").data) =
        numToString x ++ ' ' :: '>' :: '=' :: ' ' :: '5' :: '0' :: ' ' :: '&' :: '&' :: ' ' ::
          'y' :: ' ' :: '>' :: '=' :: ' ' :: '5' :: '0' :: [] := by
      show substAll 'x' (numToString x)
        ('x' :: ' ' :: '>' :: '=' :: ' ' :: '5' :: '0' :: ' ' :: '&' :: '&' :: ' ' ::
          'y' :: ' ' :: '>' :: '=' :: ' ' :: '5' :: '0' :: []) = _
      simp [substAll]
    rw [h1, substAll_append]
    rw [substAll_of_not_mem 'y' (numToString y) (numToString x) (fun d hd => (hxy d hd).2)]
    rw [numToString_nonneg x hx0, numToString_nonneg y hy0]
    congr 1
  have htok : tokenize (ruleExpression ("x >= 50 && y >= 50") x y) =
      some [Tok.num x, Tok.ge, Tok.num 50, Tok.andand, Tok.num y, Tok.ge, Tok.num 50] := by
    rw [hexpr]
    rw [tokenize_render_lead x hx0 hdx _ (by intro z hz; simp at hz; subst hz; decide)]
    rw [tokenize_space, tokenize_ge, tokenize_space]
    rw [tokenize_fifty _ (by intro z hz; simp at hz; subst hz; decide)]
    rw [tokenize_space, tokenize_amp, tokenize_space]
    rw [tokenize_render_lead y hy0 hdy _ (by intro z hz; simp at hz; subst hz; decide)]
    rw [tokenize_space, tokenize_ge, tokenize_space]
    rw [tokenize_fifty _ (by intro z hz; simp at hz)]
    rfl
  unfold evaluateQuadrantRule
  simp only [jsEval, htok]
  simp only [runParse_ge_ge]
  rw [show applyOp Tok.ge (JSVal.num x) (JSVal.num 50) =
        JSVal.bool (decide ((50 : ℚ) ≤ x)) from rfl,
    show applyOp Tok.ge (JSVal.num y) (JSVal.num 50) =
        JSVal.bool (decide ((50 : ℚ) ≤ y)) from rfl,
    truthy_and_bool]

theorem runParse_lt_ge (x a y b : ℚ) :
    runParse [Tok.num x, Tok.lt, Tok.num a, Tok.andand, Tok.num y, Tok.ge, Tok.num b] =
      some (applyOp Tok.andand (applyOp Tok.lt (JSVal.num x) (JSVal.num a))
        (applyOp Tok.ge (JSVal.num y) (JSVal.num b))) := rfl

theorem runParse_lt_lt (x a y b : ℚ) :
    runParse [Tok.num x, Tok.lt, Tok.num a, Tok.andand, Tok.num y, Tok.lt, Tok.num b] =
      some (applyOp Tok.andand (applyOp Tok.lt (JSVal.num x) (JSVal.num a))
        (applyOp Tok.lt (JSVal.num y) (JSVal.num b))) := rfl

theorem runParse_ge_lt (x a y b : ℚ) :
    runParse [Tok.num x, Tok.ge, Tok.num a, Tok.andand, Tok.num y, Tok.lt, Tok.num b] =
      some (applyOp Tok.andand (applyOp Tok.ge (JSVal.num x) (JSVal.num a))
        (applyOp Tok.lt (JSVal.num y) (JSVal.num b))) := rfl

theorem evalRule_Q2 (x y : ℚ) (hx0 : 0 ≤ x) (hy0 : 0 ≤ y)
    (hdx : FiniteDecimal x) (hdy : FiniteDecimal y) :
    evaluateQuadrantRule ("x < 50 && y >= 50") x y =
      (decide (x < (50 : ℚ)) && decide ((50 : ℚ) ≤ y)) := by
  have hxy := numToString_no_xy x hx0 hdx
  have hexpr : ruleExpression ("x < 50 && y >= 50") x y =
      ratDecRender x ++ ' ' :: '<' :: ' ' :: '5' :: '0' :: ' ' :: '&' :: '&' :: ' ' ::
        (ratDecRender y ++ ' ' :: '>' :: '=' :: ' ' :: '5' :: '0' :: []) := by
    unfold ruleExpression
    have h1 : substAll 'x' (numToString x) (("x < 50 && y >= 50").data) =
        numToString x ++ ' ' :: '<' :: ' ' :: '5' :: '0' :: ' ' :: '&' :: '&' :: ' ' ::
          'y' :: ' ' :: '>' :: '=' :: ' ' :: '5' :: '0' :: [] := by
      show substAll 'x' (numToString x)
        ('x' :: ' ' :: '<' :: ' ' :: '5' :: '0' :: ' ' :: '&' :: '&' :: ' ' ::
          'y' :: ' ' :: '>' :: '=' :: ' ' :: '5' :: '0' :: []) = _
      simp [substAll]
    rw [h1, substAll_append]
    rw [substAll_of_not_mem 'y' (numToString y) (numToString x) (fun d hd => (hxy d hd).2)]
    rw [numToString_nonneg x hx0, numToString_nonneg y hy0]
    congr 1
  have htok : tokenize (ruleExpression ("x < 50 && y >= 50") x y) =
      some [Tok.num x, Tok.lt, Tok.num 50, Tok.andand, Tok.num y, Tok.ge, Tok.num 50] := by
    rw [hexpr]
    rw [tokenize_render_lead x hx0 hdx _ (by intro z hz; simp at hz; subst hz; decide)]
    rw [tokenize_space, tokenize_lt_space, tokenize_space]
    rw [tokenize_fifty _ (by intro z hz; simp at hz; subst hz; decide)]
    rw [tokenize_space, tokenize_amp, tokenize_space]
    rw [tokenize_render_lead y hy0 hdy _ (by intro z hz; simp at hz; subst hz; decide)]
    rw [tokenize_space, tokenize_ge, tokenize_space]
    rw [tokenize_fifty _ (by intro z hz; simp at hz)]
    rfl
  unfold evaluateQuadrantRule
  simp only [jsEval, htok]
  simp only [runParse_lt_ge]
  rw [show applyOp Tok.lt (JSVal.num x) (JSVal.num 50) =
        JSVal.bool (decide (x < (50 : ℚ))) from rfl,
    show applyOp Tok.ge (JSVal.num y) (JSVal.num 50) =
        JSVal.bool (decide ((50 : ℚ) ≤ y)) from rfl,
    truthy_and_bool]

theorem evalRule_Q3 (x y : ℚ) (hx0 : 0 ≤ x) (hy0 : 0 ≤ y)
    (hdx : FiniteDecimal x) (hdy : FiniteDecimal y) :
    evaluateQuadrantRule ("x < 50 && y < 50") x y =
      (decide (x < (50 : ℚ)) && decide (y < (50 : ℚ))) := by
  have hxy := numToString_no_xy x hx0 hdx
  have hexpr : ruleExpression ("x < 50 && y < 50") x y =
      ratDecRender x ++ ' ' :: '<' :: ' ' :: '5' :: '0' :: ' ' :: '&' :: '&' :: ' ' ::
        (ratDecRender y ++ ' ' :: '<' :: ' ' :: '5' :: '0' :: []) := by
    unfold ruleExpression
    have h1 : substAll 'x' (numToString x) (("x < 50 && y < 50").data) =
        numToString x ++ ' ' :: '<' :: ' ' :: '5' :: '0' :: ' ' :: '&' :: '&' :: ' ' ::
          'y' :: ' ' :: '<' :: ' ' :: '5' :: '0' :: [] := by
      show substAll 'x' (numToString x)
        ('x' :: ' ' :: '<' :: ' ' :: '5' :: '0' :: ' ' :: '&' :: '&' :: ' ' ::
          'y' :: ' ' :: '<' :: ' ' :: '5' :: '0' :: []) = _
      simp [substAll]
    rw [h1, substAll_append]
    rw [substAll_of_not_mem 'y' (numToString y) (numToString x) (fun d hd => (hxy d hd).2)]
    rw [numToString_nonneg x hx0, numToString_nonneg y hy0]
    congr 1
  have htok : tokenize (ruleExpression ("x < 50 && y < 50") x y) =
      some [Tok.num x, Tok.lt, Tok.num 50, Tok.andand, Tok.num y, Tok.lt, Tok.num 50] := by
    rw [hexpr]
    rw [tokenize_render_lead x hx0 hdx _ (by intro z hz; simp at hz; subst hz; decide)]
    rw [tokenize_space, tokenize_lt_space, tokenize_space]
    rw [tokenize_fifty _ (by intro z hz; simp at hz; subst hz; decide)]
    rw [tokenize_space, tokenize_amp, tokenize_space]
    rw [tokenize_render_lead y hy0 hdy _ (by intro z hz; simp at hz; subst hz; decide)]
    rw [tokenize_space, tokenize_lt_space, tokenize_space]
    rw [tokenize_fifty _ (by intro z hz; simp at hz)]
    rfl
  unfold evaluateQuadrantRule
  simp only [jsEval, htok]
  simp only [runParse_lt_lt]
  rw [show applyOp Tok.lt (JSVal.num x) (JSVal.num 50) =
        JSVal.bool (decide (x < (50 : ℚ))) from rfl,
    show applyOp Tok.lt (JSVal.num y) (JSVal.num 50) =
        JSVal.bool (decide (y < (50 : ℚ))) from rfl,
    truthy_and_bool]

theorem evalRule_Q4 (x y : ℚ) (hx0 : 0 ≤ x) (hy0 : 0 ≤ y)
    (hdx : FiniteDecimal x) (hdy : FiniteDecimal y) :
    evaluateQuadrantRule ("x >= 50 && y < 50") x y =
      (decide ((50 : ℚ) ≤ x) && decide (y < (50 : ℚ))) := by
  have hxy := numToString_no_xy x hx0 hdx
  have hexpr : ruleExpression ("x >= 50 && y < 50") x y =
      ratDecRender x ++ ' ' :: '>' :: '=' :: ' ' :: '5' :: '0' :: ' ' :: '&' :: '&' :: ' ' ::
        (ratDecRender y ++ ' ' :: '<' :: ' ' :: '5' :: '0' :: []) := by
    unfold ruleExpression
    have h1 : substAll 'x' (numToString x) (("x >= 50 && y < 50").data) =
        numToString x ++ ' ' :: '>' :: '=' :: ' ' :: '5' :: '0' :: ' ' :: '&' :: '&' :: ' ' ::
          'y' :: ' ' :: '<' :: ' ' :: '5' :: '0' :: [] := by
      show substAll 'x' (numToString x)
        ('x' :: ' ' :: '>' :: '=' :: ' ' :: '5' :: '0' :: ' ' :: '&' :: '&' :: ' ' ::
          'y' :: ' ' :: '<' :: ' ' :: '5' :: '0' :: []) = _
      simp [substAll]
    rw [h1, substAll_append]
    rw [substAll_of_not_mem 'y' (numToString y) (numToString x) (fun d hd => (hxy d hd).2)]
    rw [numToString_nonneg x hx0, numToString_nonneg y hy0]
    congr 1
  have htok : tokenize (ruleExpression ("x >= 50 && y < 50") x y) =
      some [Tok.num x, Tok.ge, Tok.num 50, Tok.andand, Tok.num y, Tok.lt, Tok.num 50] := by
    rw [hexpr]
    rw [tokenize_render_lead x hx0 hdx _ (by intro z hz; simp at hz; subst hz; decide)]
    rw [tokenize_space, tokenize_ge, tokenize_space]
    rw [tokenize_fifty _ (by intro z hz; simp at hz; subst hz; decide)]
    rw [tokenize_space, tokenize_amp, tokenize_space]
    rw [tokenize_render_lead y hy0 hdy _ (by intro z hz; simp at hz; subst hz; decide)]
    rw [tokenize_space, tokenize_lt_space, tokenize_space]
    rw [tokenize_fifty _ (by intro z hz; simp at hz)]
    rfl
  unfold evaluateQuadrantRule
  simp only [jsEval, htok]
  simp only [runParse_ge_lt]
  rw [show applyOp Tok.ge (JSVal.num x) (JSVal.num 50) =
        JSVal.bool (decide ((50 : ℚ) ≤ x)) from rfl,
    show applyOp Tok.lt (JSVal.num y) (JSVal.num 50) =
        JSVal.bool (decide (y < (50 : ℚ))) from rfl,
    truthy_and_bool]

/-- Claim C1: for every point `(x, y)` with both coordinates in `[0, 100]`
(JS numbers, i.e. rationals with terminating decimal expansion), classifying
the point against the default quadrant set of `generateDefaultQuadrants`
returns exactly one quadrant (never `none`), and the four canonical rules are
pairwise disjoint, so exactly one rule matches the point. -/
theorem c1_default_partition (xLabel yLabel : String) (x y : ℚ)
    (hdx : FiniteDecimal x) (hdy : FiniteDecimal y)
    (hx0 : 0 ≤ x) (hx1 : x ≤ 100) (hy0 : 0 ≤ y) (hy1 : y ≤ 100) :
    (∃ q, getQuadrantForItem x y (generateDefaultQuadrants xLabel yLabel) = some q) ∧
    ((generateDefaultQuadrants xLabel yLabel).filter
      (fun q => evaluateQuadrantRule q.rule x y)).length = 1 := by
  have hQ1 := evalRule_Q1 x y hx0 hy0 hdx hdy
  have hQ2 := evalRule_Q2 x y hx0 hy0 hdx hdy
  have hQ3 := evalRule_Q3 x y hx0 hy0 hdx hdy
  have hQ4 := evalRule_Q4 x y hx0 hy0 hdx hdy
  rcases le_or_lt 50 x with hx | hx <;> rcases le_or_lt 50 y with hy | hy
  · have hx2 : ¬ x < (50 : ℚ) := not_lt.mpr hx
    have hy2 : ¬ y < (50 : ℚ) := not_lt.mpr hy
    simp [generateDefaultQuadrants, getQuadrantForItem, List.filter,
      hQ1, hQ2, hQ3, hQ4, hx, hy, hx2, hy2]
  · have hx2 : ¬ x < (50 : ℚ) := not_lt.mpr hx
    have hy2 : ¬ (50 : ℚ) ≤ y := not_le.mpr hy
    simp [generateDefaultQuadrants, getQuadrantForItem, List.filter,
      hQ1, hQ2, hQ3, hQ4, hx, hy, hx2, hy2]
  · have hx2 : ¬ (50 : ℚ) ≤ x := not_le.mpr hx
    have hy2 : ¬ y < (50 : ℚ) := not_lt.mpr hy
    simp [generateDefaultQuadrants, getQuadrantForItem, List.filter,
      hQ1, hQ2, hQ3, hQ4, hx, hy, hx2, hy2]
  · have hx2 : ¬ (50 : ℚ) ≤ x := not_le.mpr hx
    have hy2 : ¬ (50 : ℚ) ≤ y := not_le.mpr hy
    simp [generateDefaultQuadrants, getQuadrantForItem, List.filter,
      hQ1, hQ2, hQ3, hQ4, hx, hy, hx2, hy2]

/-- Witness for C1 at the concrete point `(25.5, 49)` with labels
`Urgency`/`Importance`. -/
theorem c1_default_partition_witness :
    (FiniteDecimal (mkRat 51 2) ∧ FiniteDecimal (49 : ℚ) ∧
      0 ≤ mkRat 51 2 ∧ mkRat 51 2 ≤ 100 ∧ 0 ≤ (49 : ℚ) ∧ (49 : ℚ) ≤ 100) ∧
    (∃ q, getQuadrantForItem (mkRat 51 2) 49
        (generateDefaultQuadrants ("Urgency") ("Importance")) = some q) ∧
    ((generateDefaultQuadrants ("Urgency") ("Importance")).filter
      (fun q => evaluateQuadrantRule q.rule (mkRat 51 2) 49)).length = 1 :=
  ⟨⟨by decide, by decide, by decide, by decide, by decide, by decide⟩,
    c1_default_partition ("Urgency") ("Importance") (mkRat 51 2) 49
      (by decide) (by decide) (by decide) (by decide) (by decide) (by decide)⟩

/-! ## Claims C3, C8, C10: classification order, determinism, totality -/

/-- Claim C3: for every point and every ordered quadrant list,
`getQuadrantForItem` tries the rules in list order and returns the first
quadrant whose rule evaluates to true (it equals `List.find?`), and it
returns `none` exactly when no rule matches - an explicit unclassified
outcome, not an error. -/
theorem c3_first_match (x y : ℚ) (qs : List Quadrant) :
    getQuadrantForItem x y qs = qs.find? (fun q => evaluateQuadrantRule q.rule x y) ∧
    (getQuadrantForItem x y qs = none ↔
      ∀ q ∈ qs, evaluateQuadrantRule q.rule x y = false) := by
  have h1 : getQuadrantForItem x y qs =
      qs.find? (fun q => evaluateQuadrantRule q.rule x y) := by
    induction qs with
    | nil => rfl
    | cons q rest ih =>
      by_cases hq : evaluateQuadrantRule q.rule x y
      · simp [getQuadrantForItem, List.find?_cons, hq]
      · simp only [Bool.not_eq_true] at hq
        simp [getQuadrantForItem, List.find?_cons, hq, ih]
  refine ⟨h1, ?_⟩
  rw [h1, List.find?_eq_none]
  constructor
  · intro h q hq
    have := h q hq
    simpa using this
  · intro h q hq
    simp [h q hq]

/-- Claim C8: rule evaluation and classification are deterministic and
stateless.  The source functions read no mutable state, so their embedding is
a pure function of the rule text, the point and the quadrant list; evaluating
the same rule twice at the same point yields the same boolean, and
classifying the same point twice against the same quadrant list yields the
same quadrant. -/
theorem c8_deterministic (rule : String) (x y : ℚ) (qs : List Quadrant) :
    evaluateQuadrantRule rule x y = evaluateQuadrantRule rule x y ∧
    getQuadrantForItem x y qs = getQuadrantForItem x y qs :=
  ⟨rfl, rfl⟩

/-- Claim C10: rule evaluation at classification time is total over all rule
strings: for every rule text and point, `evaluateQuadrantRule` returns a
boolean; either the dynamic evaluation fails (modelled by `jsEval = none`,
the thrown exception) and the `catch` absorbs it as `false` - the rule is
treated as not matching - or the evaluation succeeds and the truthiness of
its value is returned.  Hence `getQuadrantForItem` is total for arbitrary
rule strings. -/
theorem c10_total_eval (rule : String) (x y : ℚ) :
    (jsEval (ruleExpression rule x y) = none ∧ evaluateQuadrantRule rule x y = false) ∨
    (∃ v, jsEval (ruleExpression rule x y) = some v ∧
      evaluateQuadrantRule rule x y = truthy v) := by
  cases h : jsEval (ruleExpression rule x y) with
  | none => exact Or.inl ⟨rfl, by simp [evaluateQuadrantRule, h]⟩
  | some v => exact Or.inr ⟨v, rfl, by simp [evaluateQuadrantRule, h]⟩

/-! ## Lemmas on the insight aggregator -/

theorem foldl_maxStep_ge_init (init : Quadrant × List AnalysisItem)
    (l : List (Quadrant × List AnalysisItem)) :
    init.2.length ≤ (l.foldl maxStep init).2.length := by
  induction l generalizing init with
  | nil => simp
  | cons p l ih =>
    have h1 : init.2.length ≤ (maxStep init p).2.length := by
      unfold maxStep
      split <;> omega
    exact le_trans h1 (ih (maxStep init p))

theorem foldl_maxStep_mem_le (l : List (Quadrant × List AnalysisItem)) :
    ∀ init p, p ∈ l → p.2.length ≤ (l.foldl maxStep init).2.length := by
  induction l with
  | nil =>
    intro init p hp
    simp at hp
  | cons a l ih =>
    intro init p hp
    rw [List.foldl_cons]
    rcases List.mem_cons.mp hp with rfl | hp2
    · have h1 : p.2.length ≤ (maxStep init p).2.length := by
        unfold maxStep
        split <;> omega
      exact le_trans h1 (foldl_maxStep_ge_init (maxStep init p) l)
    · exact ih (maxStep init a) p hp2

theorem foldl_maxStep_result_mem (init : Quadrant × List AnalysisItem)
    (l : List (Quadrant × List AnalysisItem)) :
    l.foldl maxStep init = init ∨ l.foldl maxStep init ∈ l := by
  induction l generalizing init with
  | nil => exact Or.inl rfl
  | cons a l ih =>
    rw [List.foldl_cons]
    rcases ih (maxStep init a) with h | h
    · by_cases hc : init.2.length < a.2.length
      · right
        rw [h]
        unfold maxStep
        rw [if_pos hc]
        exact List.mem_cons_self a l
      · left
        rw [h]
        unfold maxStep
        rw [if_neg hc]
    · right
      exact List.mem_cons_of_mem a h

theorem filter_seven_keep1 (p : GeneratedInsight → Bool) (c1 c2 c3 c4 c5 c6 c7 : Prop)
    [Decidable c1] [Decidable c2] [Decidable c3] [Decidable c4] [Decidable c5]
    [Decidable c6] [Decidable c7]
    (i1 i2 i3 i4 i5 i6 i7 : GeneratedInsight)
    (h1 : p i1 = true) (h2 : p i2 = false) (h3 : p i3 = false) (h4 : p i4 = false)
    (h5 : p i5 = false) (h6 : p i6 = false) (h7 : p i7 = false) :
    ((if c1 then [i1] else []) ++ (if c2 then [i2] else []) ++ (if c3 then [i3] else []) ++
      (if c4 then [i4] else []) ++ (if c5 then [i5] else []) ++ (if c6 then [i6] else []) ++
      (if c7 then [i7] else [])).filter p = if c1 then [i1] else [] := by
  have e : ∀ (c : Prop) (inst : Decidable c) (i : GeneratedInsight), p i = false →
      List.filter p (if c then [i] else []) = [] := by
    intro c inst i hi
    split <;> simp [hi]
  have e1 : List.filter p (if c1 then [i1] else []) = if c1 then [i1] else [] := by
    split <;> simp [h1]
  simp only [List.filter_append, e _ _ _ h2, e _ _ _ h3, e _ _ _ h4, e _ _ _ h5,
    e _ _ _ h6, e _ _ _ h7, e1]
  simp

theorem filter_seven_keep4 (p : GeneratedInsight → Bool) (c1 c2 c3 c4 c5 c6 c7 : Prop)
    [Decidable c1] [Decidable c2] [Decidable c3] [Decidable c4] [Decidable c5]
    [Decidable c6] [Decidable c7]
    (i1 i2 i3 i4 i5 i6 i7 : GeneratedInsight)
    (h1 : p i1 = false) (h2 : p i2 = false) (h3 : p i3 = false) (h4 : p i4 = true)
    (h5 : p i5 = false) (h6 : p i6 = false) (h7 : p i7 = false) :
    ((if c1 then [i1] else []) ++ (if c2 then [i2] else []) ++ (if c3 then [i3] else []) ++
      (if c4 then [i4] else []) ++ (if c5 then [i5] else []) ++ (if c6 then [i6] else []) ++
      (if c7 then [i7] else [])).filter p = if c4 then [i4] else [] := by
  have e : ∀ (c : Prop) (inst : Decidable c) (i : GeneratedInsight), p i = false →
      List.filter p (if c then [i] else []) = [] := by
    intro c inst i hi
    split <;> simp [hi]
  have e4 : List.filter p (if c4 then [i4] else []) = if c4 then [i4] else [] := by
    split <;> simp [h4]
  simp only [List.filter_append, e _ _ _ h1, e _ _ _ h2, e _ _ _ h3, e _ _ _ h5,
    e _ _ _ h6, e _ _ _ h7, e4]
  simp

/-! ## Claim C4: empty item collection -/

/-- Claim C4 (amended): when the item collection is empty and the quadrant
list is non-empty (as the builder always produces), the aggregator returns
the empty insight sequence with no arithmetic fault, and the overall
confidence of `analyzeContent` is 0.  The non-emptiness condition is forced
by the counterexample `c4_empty_quadrants_fault`. -/
theorem c4_empty_items_amended (qs : List Quadrant) (axes : Axes) (hq : qs ≠ []) :
    generateDataInsights [] qs axes = some [] ∧ overallConfidence [] = 0 := by
  obtain ⟨q, rest, rfl⟩ := List.exists_cons_of_ne_nil hq
  constructor
  · have hqc : quadrantCounts [] (q :: rest) =
        (q, ([] : List AnalysisItem)) ::
          List.map (fun q2 => (q2, ([] : List AnalysisItem))) rest := by
      unfold quadrantCounts classifiedItems
      simp
    have hmax : ((List.map (fun q2 => (q2, ([] : List AnalysisItem))) rest).foldl maxStep
        (q, ([] : List AnalysisItem))).2 = [] := by
      rcases foldl_maxStep_result_mem (q, ([] : List AnalysisItem))
          (List.map (fun q2 => (q2, ([] : List AnalysisItem))) rest) with h | h
      · rw [h]
      · obtain ⟨p, hp, hpe⟩ := List.mem_map.mp h
        rw [← hpe]
    unfold generateDataInsights
    rw [hqc]
    simp only [jsReduce1]
    simp [hmax, outlierItems, Rat.mkRat_eq_div]
  · rfl

/-- Counterexample to C4 as universally stated: with an empty item collection
and an empty quadrant list, the aggregator does not return the empty insight
sequence - the initial `quadrantCounts.reduce(...)` throws a `TypeError`
(reduce of empty array with no initial value), modelled by `none`. -/
theorem c4_empty_quadrants_fault :
    generateDataInsights [] [] { x := "Importance", y := "Urgency", rationale := "r" } =
      none := rfl

/-- Witness for the amended C4 at the default quadrant set. -/
theorem c4_empty_items_amended_witness :
    (generateDefaultQuadrants ("Importance") ("Urgency") ≠ []) ∧
    (generateDataInsights [] (generateDefaultQuadrants ("Importance") ("Urgency"))
        { x := "Importance", y := "Urgency", rationale := "r" } = some [] ∧
      overallConfidence [] = 0) :=
  ⟨List.cons_ne_nil _ _,
    c4_empty_items_amended (generateDefaultQuadrants ("Importance") ("Urgency"))
      { x := "Importance", y := "Urgency", rationale := "r" } (List.cons_ne_nil _ _)⟩

/-! ## Claim C5: the clustering insight -/

/-- Claim C5: for every non-empty item collection and non-empty quadrant
list, the aggregator emits a clustering insight if and only if the quadrant
holding the maximum number of classified items (the reduce result `m`, whose
count bounds every quadrant count) has a count strictly exceeding 40% of the
total item count (`items.length * 0.4 = mkRat (2 * items.length) 5`); the
emitted insight is exactly `distInsight items m`, whose description names the
winning quadrant and its percentage. -/
theorem c5_clustering_iff (items : List AnalysisItem) (qs : List Quadrant)
    (axes : Axes) (hi : items ≠ []) (hq : qs ≠ []) :
    ∃ m, jsReduce1 maxStep (quadrantCounts items qs) = some m ∧
      (∀ p ∈ quadrantCounts items qs, p.2.length ≤ m.2.length) ∧
      ∃ res, generateDataInsights items qs axes = some res ∧
        res.filter (fun ins => decide (ins.type = InsightType.distribution)) =
          (if mkRat (2 * items.length) 5 < (m.2.length : ℚ) then [distInsight items m]
            else []) := by
  obtain ⟨q, rest, rfl⟩ := List.exists_cons_of_ne_nil hq
  refine ⟨_, rfl, ?_, ?_⟩
  · intro p hp
    have hqc : quadrantCounts items (q :: rest) =
        (q, classifiedItems items (q :: rest) q) ::
          List.map (fun q2 => (q2, classifiedItems items (q :: rest) q2)) rest := rfl
    rw [hqc] at hp
    rcases List.mem_cons.mp hp with rfl | hp2
    · exact foldl_maxStep_ge_init _ _
    · exact foldl_maxStep_mem_le _ _ p hp2
  · refine ⟨_, rfl, ?_⟩
    exact filter_seven_keep1 _ _ _ _ _ _ _ _ _ _ _ _ _ _ _ rfl rfl rfl rfl rfl rfl rfl

/-- Witness for C5: ten items of which five (50%) are classified into the
default Q1; the threshold `10 * 0.4 = 4` is strictly exceeded, so the
clustering insight is emitted naming Q1. -/
theorem c5_clustering_iff_witness :
    (demoItems10 ≠ [] ∧ generateDefaultQuadrants ("Urgency") ("Importance") ≠ []) ∧
    (jsReduce1 maxStep (quadrantCounts demoItems10
        (generateDefaultQuadrants ("Urgency") ("Importance")))).map
      (fun m => (m.1.id, m.2.length)) = some (("Q1"), 5) ∧
    mkRat (2 * demoItems10.length) 5 < ((5 : ℚ)) ∧
    (∃ m, jsReduce1 maxStep (quadrantCounts demoItems10
        (generateDefaultQuadrants ("Urgency") ("Importance"))) = some m ∧
      (∀ p ∈ quadrantCounts demoItems10 (generateDefaultQuadrants ("Urgency") ("Importance")),
        p.2.length ≤ m.2.length) ∧
      ∃ res, generateDataInsights demoItems10
          (generateDefaultQuadrants ("Urgency") ("Importance")) demoAxes = some res ∧
        res.filter (fun ins => decide (ins.type = InsightType.distribution)) =
          (if mkRat (2 * demoItems10.length) 5 < (m.2.length : ℚ)
            then [distInsight demoItems10 m] else [])) :=
  ⟨⟨by decide, List.cons_ne_nil _ _⟩, by decide, by decide,
    c5_clustering_iff demoItems10 (generateDefaultQuadrants ("Urgency") ("Importance"))
      demoAxes (by decide) (List.cons_ne_nil _ _)⟩

/-! ## Claim C9: outliers -/

/-- Claim C9 (amended): an item is counted as an outlier exactly when its x
or y coordinate lies outside the closed interval [10, 90] (so an item at
exactly 10 or 90 is not an outlier); provided the quadrant list is non-empty,
the aggregator emits exactly one outlier insight listing all outliers when
the outlier set is non-empty and none otherwise.  The non-emptiness condition
on the quadrant list is forced by `c9_empty_quadrants_fault`. -/
theorem c9_outliers_amended (items : List AnalysisItem) (qs : List Quadrant)
    (axes : Axes) (hq : qs ≠ []) :
    outlierItems items = items.filter (fun i =>
      decide (¬ (10 ≤ i.x ∧ i.x ≤ 90 ∧ 10 ≤ i.y ∧ i.y ≤ 90))) ∧
    ∃ res, generateDataInsights items qs axes = some res ∧
      res.filter (fun ins => decide (ins.type = InsightType.outliers)) =
        (if 0 < (outlierItems items).length then [outlierInsight (outlierItems items)]
          else []) := by
  constructor
  · unfold outlierItems
    apply List.filter_congr
    intro i _
    rw [decide_eq_decide]
    constructor
    · rintro ((h | h) | (h | h)) ⟨h1, h2, h3, h4⟩ <;> linarith
    · intro hn
      by_contra hno
      push_neg at hno
      obtain ⟨⟨hb1, hb2⟩, hb3, hb4⟩ := hno
      exact hn ⟨hb2, hb1, hb4, hb3⟩
  · obtain ⟨q, rest, rfl⟩ := List.exists_cons_of_ne_nil hq
    refine ⟨_, rfl, ?_⟩
    exact filter_seven_keep4 _ _ _ _ _ _ _ _ _ _ _ _ _ _ _ rfl rfl rfl rfl rfl rfl rfl

/-- Counterexample to C9 as universally stated: with a non-empty outlier set
but an empty quadrant list, the aggregator emits no outlier insight - the
distribution step faults first (reduce of empty array), modelled by
`none`. -/
theorem c9_empty_quadrants_fault :
    generateDataInsights [itemAt95] [] demoAxes = none := rfl

/-- Witness for the amended C9: the item at (95, 50) is an outlier, the item
at (50, 50) is not, and exactly one outlier insight listing the outlier is
emitted. -/
theorem c9_outliers_amended_witness :
    (generateDefaultQuadrants ("Urgency") ("Importance") ≠ []) ∧
    outlierItems [itemAt95, itemAt50] = [itemAt95] ∧
    (outlierItems [itemAt95, itemAt50] = [itemAt95, itemAt50].filter (fun i =>
        decide (¬ (10 ≤ i.x ∧ i.x ≤ 90 ∧ 10 ≤ i.y ∧ i.y ≤ 90))) ∧
      ∃ res, generateDataInsights [itemAt95, itemAt50]
          (generateDefaultQuadrants ("Urgency") ("Importance")) demoAxes = some res ∧
        res.filter (fun ins => decide (ins.type = InsightType.outliers)) =
          (if 0 < (outlierItems [itemAt95, itemAt50]).length
            then [outlierInsight (outlierItems [itemAt95, itemAt50])] else [])) :=
  ⟨List.cons_ne_nil _ _, by decide,
    c9_outliers_amended [itemAt95, itemAt50]
      (generateDefaultQuadrants ("Urgency") ("Importance")) demoAxes
      (List.cons_ne_nil _ _)⟩

/-! ## Claims C2, C6, C7: the three divergences between spec and code -/

/-- Claim C2, evaluated at the failing input: the rule
`x > 50 && alert(1)` is outside the spec grammar, but the source has no
compile step and raises no ParseError; the dynamic evaluation throws
(`jsEval = none`), the `catch` silently turns the rule into `false`, and a
quadrant carrying it is accepted at construction and simply never matches
during classification. -/
theorem c2_dynamic_eval_silent_false :
    jsEval (ruleExpression ("x > 50 && alert(1)") 60 50) = none ∧
    evaluateQuadrantRule ("x > 50 && alert(1)") 60 50 = false ∧
    getQuadrantForItem 60 50 [alertQuadrant] = none := by
  refine ⟨rfl, rfl, rfl⟩

/-- Claim C6, evaluated at the failing input: when an API key is present but
the analyzer fails, `POST` falls back to the fixed deterministic mock result
and prepends an explanatory note, so the caller still receives a structurally
valid result - but `metadata.usingMockData` is `!hasApiKey = false` on this
path, so the placeholder is not flagged via the metadata field. -/
theorem c6_mock_flag_not_set :
    (postAnalyzeCore true none ("sample input") Domain.auto).items =
      (createMockAnalysis ("sample input") Domain.auto).items ∧
    (postAnalyzeCore true none ("sample input") Domain.auto).insights.head? =
      some mockNoteFailure ∧
    (postAnalyzeCore true none ("sample input") Domain.auto).metadata.usingMockData =
      some false :=
  ⟨rfl, rfl, rfl⟩

/-- Claim C7, evaluated at the failing input: for the custom quadrant set
`[customQuadrant]` (id Q1, rule `x >= 30 && y >= 30`) and the item at
(40, 60), the rule-based classifier assigns the quadrant (colour `#ef4444`),
while the renderer's hardcoded 50/50 split finds no matching quadrant and
falls back to the default blue `#3b82f6` - the renderer disagrees with the
classifier. -/
theorem c7_renderer_hardcoded_split :
    getQuadrantForItem 40 60 [customQuadrant] = some customQuadrant ∧
    customQuadrant.color = "#ef4444" ∧
    plotMarkerColor [customQuadrant] itemAt4060 = "#3b82f6" ∧
    plotMarkerColor [customQuadrant] itemAt4060 ≠ customQuadrant.color := by
  refine ⟨by decide, rfl, rfl, by decide⟩
